import Mathlib

/-!
# Verification of the love-from-fans server core (src/server.js)

Shallow embedding of the server's pure core: slot layout, path sandboxing,
PNG header reading, unique filename allocation, trash manifest bookkeeping,
ordered image index, and route authentication gating.

Conventions of the embedding:
* JavaScript numbers are modelled as `ℚ` (all arithmetic in the layout code is
  exact at these magnitudes, so rationals agree with IEEE doubles here);
  byte values and timestamps as `ℕ`; rounded pixel outputs as `ℤ`.
* `Array.prototype.sort` (stable since ES2019, and stable in Node) is modelled
  by the stable `List.insertionSort`.
* Strings are Lean `String`s; the Node `path` functions are modelled for the
  POSIX separator `/` used by the deployment.
* Filesystem state is an explicit value (`FsEntry` trees, manifest lists);
  `fs.promises` calls become lookups in that state.
-/

deriving instance DecidableEq for Except

namespace LoveFromFans

/-- `Math.round`: nearest integer, halves towards `+∞` (`Math.round(0.5) = 1`). -/
def jsRound (q : ℚ) : ℤ := ⌊q + 1/2⌋

/-- `const OVERLAY_LEFT = 1152` (src/server.js:17). -/
def OVERLAY_LEFT : ℚ := 1152

/-- `const OVERLAY_WIDTH = 3576` (src/server.js:18). -/
def OVERLAY_WIDTH : ℚ := 3576

/-- `const PADDING_TOP = 100` (src/server.js:20). -/
def PADDING_TOP : ℚ := 100

/-- `const PADDING_LEFT = 100` (src/server.js:21). -/
def PADDING_LEFT : ℚ := 100

/-- `const PADDING_RIGHT = 100` (src/server.js:22). -/
def PADDING_RIGHT : ℚ := 100

/-- `const GAP = 50` (src/server.js:23). -/
def GAP : ℚ := 50

/-- `const COLUMNS = 6` (src/server.js:24). -/
def COLUMNS : ℚ := 6

/-- `const SLOT_COUNT = 24` (src/server.js:25). -/
def SLOT_COUNT : Nat := 24

/-- `const DEFAULT_IMAGE_WIDTH = 600` (src/server.js:29). -/
def DEFAULT_IMAGE_WIDTH : ℚ := 600

/-- `const DEFAULT_IMAGE_HEIGHT = 400` (src/server.js:30). -/
def DEFAULT_IMAGE_HEIGHT : ℚ := 400

/-- `str.startsWith(p)` via the character lists of the two strings. -/
def strStartsWith (s p : String) : Bool := List.isPrefixOf p.data s.data

/-- `str.endsWith(p)` via the character lists of the two strings. -/
def strEndsWith (s p : String) : Bool := List.isSuffixOf p.data s.data

/-! ## Node `path` model (POSIX separator) -/

/-- `path.isAbsolute` (POSIX): the string starts with `/`. -/
def isAbsolutePath (s : String) : Bool := strStartsWith s "/"

/-- Split a character list at `/` separators (the segments of a POSIX path;
an empty string yields the single empty segment, like `"".split("/")`). -/
def splitSegs (l : List Char) : List (List Char) :=
  l.foldr
    (fun c acc =>
      if c = '/' then [] :: acc
      else
        match acc with
        | [] => [[c]]
        | h :: t => (c :: h) :: t)
    [[]]

/-- One step of Node's `normalizeString`: fold a path segment onto the stack of
already-processed segments (held in reverse).  `.` and empty segments vanish;
`..` pops a non-`..` segment, is dropped at the root of an absolute path, and
accumulates at the front of a relative path. -/
def normStep (isAbs : Bool) (acc : List (List Char)) (seg : List Char) : List (List Char) :=
  if seg = [] ∨ seg = ['.'] then acc
  else if seg = ['.', '.'] then
    match acc with
    | [] => if isAbs then [] else [['.', '.']]
    | top :: rest => if top = ['.', '.'] then seg :: acc else rest
  else seg :: acc

/-- Join path segments with `/`. -/
def joinSegs (segs : List (List Char)) : List Char := List.intercalate ['/'] segs

/-- `path.normalize` (POSIX): resolve `.`/`..` segments, keep the leading `/`
of an absolute path and the trailing `/` of a non-empty result, and return
`.` for an empty relative result. -/
def pathNormalize (s : String) : String :=
  if s = "" then "."
  else
    let isAbs := isAbsolutePath s
    let segs := ((splitSegs s.data).foldl (normStep isAbs) []).reverse
    let core := joinSegs segs
    let trailing := strEndsWith s "/"
    if isAbs then
      if core = [] then "/"
      else String.mk ('/' :: (core ++ (if trailing then ['/'] else [])))
    else
      if core = [] then (if trailing then "./" else ".")
      else String.mk (core ++ (if trailing then ['/'] else []))

/-- The regex replace `.replace(/^(\.\.(\/|\\|$))+/, "")` of `safeUploadsPath`
on the character list: repeatedly drop a leading `..` that is followed by `/`,
`\` or the end of the string. -/
def stripDD (l : List Char) : List Char :=
  match l with
  | [] => []
  | c1 :: t1 =>
    if c1 = '.' then
      match t1 with
      | [] => l
      | c2 :: t2 =>
        if c2 = '.' then
          match t2 with
          | [] => []
          | c3 :: t3 => if c3 = '/' ∨ c3 = '\\' then stripDD t3 else l
        else l
    else l

/-- String wrapper for `stripDD`. -/
def stripLeadingDotDot (s : String) : String := String.mk (stripDD s.data)

/-- `const UPLOAD_DIR = path.join(ROOT_DIR, "uploads")` with the server rooted
at `/app` (src/server.js:12). -/
def UPLOAD_DIR : String := "/app/uploads"

/-- `path.resolve(base, rel)` for an absolute `base` and relative `rel`:
join, normalize, and drop a trailing separator (kept only for the root). -/
def pathResolve (base rel : String) : String :=
  let joined := if rel = "" then base else base ++ "/" ++ rel
  let n := pathNormalize joined
  if n.data.length > 1 ∧ strEndsWith n "/" then String.mk n.data.dropLast else n

/-- `safeUploadsPath` (src/server.js:567-578).  The input is the URL-decoded
path segment (the claims' inputs contain no percent-escapes, so
`decodeURIComponent` is the identity on them). -/
def safeUploadsPath (urlPath : String) : Except String String :=
  let normalized := stripLeadingDotDot (pathNormalize urlPath)
  if isAbsolutePath normalized then .error "Invalid path"
  else
    let resolved := pathResolve UPLOAD_DIR normalized
    if resolved ≠ UPLOAD_DIR ∧ strStartsWith resolved (UPLOAD_DIR ++ "/") = false then
      .error "Invalid path"
    else .ok resolved

/-- `path.relative(UPLOAD_DIR, p)` specialised to `p` equal to or inside the
upload root (which `safeUploadsPath` guarantees for every path it returns);
`normalizeRelPath` is the identity for the POSIX separator. -/
def relFromUploads (resolved : String) : String :=
  if resolved = UPLOAD_DIR then ""
  else String.mk (resolved.data.drop (UPLOAD_DIR.data.length + 1))

/-- `path.basename` (POSIX) for paths without a trailing separator (the only
shape the server feeds it): the characters after the last `/`. -/
def basename (s : String) : String :=
  String.mk ((s.data.reverse.takeWhile (fun c => !(c = '/'))).reverse)

/-- A relative path, split into segments for filesystem lookup. -/
def splitPath (p : String) : List String := (splitSegs p.data).map String.mk

/-! ## PNG header reader -/

/-- Byte `i` of the 24-byte buffer `Buffer.alloc(24)` after `handle.read`:
bytes past the end of the file stay zero. -/
def bufByte (bytes : List Nat) (i : Nat) : Nat := (bytes.get? i).getD 0

/-- `buffer.readUInt32BE(off)`: big-endian 32-bit read. -/
def readUInt32BE (bytes : List Nat) (off : Nat) : Nat :=
  bufByte bytes off * 16777216 + bufByte bytes (off + 1) * 65536 +
    bufByte bytes (off + 2) * 256 + bufByte bytes (off + 3)

/-- `getPngSize` (src/server.js:257-275) on the first bytes of the file.
The code checks only `buffer.readUInt32BE(0) === 0x89504e47` (the first four
signature bytes); `Number.isFinite` is always true of a `readUInt32BE` result,
so only the zero checks on width and height remain. -/
def getPngSize (bytes : List Nat) : Except String (Nat × Nat) :=
  if readUInt32BE bytes 0 ≠ 0x89504e47 then .error "Not a PNG"
  else
    let width := readUInt32BE bytes 16
    let height := readUInt32BE bytes 20
    if width = 0 ∨ height = 0 then .error "Invalid PNG size"
    else .ok (width, height)

/-- The full 8-byte PNG signature `\x89PNG\r\n\x1a\n`. -/
def pngSignature : List Nat := [137, 80, 78, 71, 13, 10, 26, 10]

/-! ## Filesystem model and the Ordered-Image Index -/

/-- A directory entry of the upload tree: a regular file with its bytes, or a
subdirectory with its entries.  The list order is the enumeration order of
`fsp.readdir`. -/
inductive FsEntry where
  | file (name : String) (bytes : List Nat)
  | dir (name : String) (children : List FsEntry)

/-- Look a relative path (as segments) up in a directory listing. -/
def lookupFile : List FsEntry → List String → Option (List Nat)
  | entries, [n] =>
    entries.findSome? fun e =>
      match e with
      | .file m b => if m = n then some b else none
      | .dir _ _ => none
  | entries, n :: rest =>
    entries.findSome? fun e =>
      match e with
      | .file _ _ => none
      | .dir m ch => if m = n then lookupFile ch rest else none
  | _, [] => none

/-- `isBatchDirName` (src/server.js:253-255): the regex `^batch-\d{4}$`. -/
def isBatchDirName (name : String) : Bool :=
  strStartsWith name "batch-" &&
    ((name.drop 6).length = 4 && (name.drop 6).data.all (·.isDigit))

/-- The file-collection pass of `getOrderedImages` (src/server.js:364-380):
top-level `.png` files, plus the `.png` files one level down inside
`batch-\d{4}` directories, in enumeration order. -/
def imageFiles (entries : List FsEntry) : List String :=
  entries.flatMap fun e =>
    match e with
    | .file n _ => if strEndsWith n ".png" then [n] else []
    | .dir n ch =>
      if isBatchDirName n then
        ch.filterMap fun c =>
          match c with
          | .file m _ => if strEndsWith m ".png" then some (n ++ "/" ++ m) else none
          | .dir _ _ => none
      else []

/-- The stat-and-sort pass of `getOrderedImages` (src/server.js:382-391):
pair each path with its `mtimeMs` and sort ascending.  The JS `sort` with the
numeric comparator `a.mtimeMs - b.mtimeMs` is a stable ascending sort, modelled
by the stable `List.insertionSort`. -/
def orderedStats (entries : List FsEntry) (mtime : String → Nat) : List (String × Nat) :=
  List.insertionSort (fun a b => a.2 ≤ b.2) ((imageFiles entries).map fun p => (p, mtime p))

/-- The `ordered` result of `getOrderedImages`: the sorted relative paths. -/
def orderedImages (entries : List FsEntry) (mtime : String → Nat) : List String :=
  (orderedStats entries mtime).map Prod.fst

/-! ## Trash manifest store -/

/-- An entry of the `trash.json` manifest (src/server.js:288-293). -/
structure TrashEntry where
  id : String
  filename : String
  path : String
  trashedAt : Nat
deriving DecidableEq

/-- The error cases surfaced by `markAsTrashed`: `safeUploadsPath` throwing
`Error("Invalid path")`, or `fsp.access` throwing `ENOENT`. -/
inductive JsError where
  | invalidPath
  | enoent
deriving DecidableEq

/-- `markAsTrashed` (src/server.js:277-298).  The generated id
(`makeTrashId()`, time plus random suffix) and `Date.now()` enter as the
parameters `freshId` and `now`.  The function performs no filesystem writes —
this variant only records the path in the manifest — so the returned
filesystem equals the input one. -/
def markAsTrashed (fs : List FsEntry) (trash : List TrashEntry) (relPath freshId : String)
    (now : Nat) : Except JsError (TrashEntry × List FsEntry × List TrashEntry) :=
  match safeUploadsPath relPath with
  | .error _ => .error .invalidPath
  | .ok sourcePath =>
    if (lookupFile fs (splitPath (relFromUploads sourcePath))).isSome then
      let normalized := relFromUploads sourcePath
      match trash.find? (fun e => e.path = normalized) with
      | some existing => .ok (existing, fs, trash)
      | none =>
        let e : TrashEntry :=
          { id := freshId, filename := basename normalized, path := normalized,
            trashedAt := now }
        .ok (e, fs, e :: trash)
    else .error .enoent

/-- The `findIndex`-then-`splice` of `restoreTrashEntry`: remove the first
entry with the given id, returning it and the remaining list. -/
def removeById : List TrashEntry → String → Option (TrashEntry × List TrashEntry)
  | [], _ => none
  | e :: rest, i =>
    if e.id = i then some (e, rest)
    else
      match removeById rest i with
      | none => none
      | some (f, rest') => some (f, e :: rest')

/-- `restoreTrashEntry` (src/server.js:300-310): drop the manifest entry with
the given id; the file itself is untouched. -/
def restoreTrashEntry (fs : List FsEntry) (trash : List TrashEntry) (i : String) :
    Option (TrashEntry × List FsEntry × List TrashEntry) :=
  (removeById trash i).map fun p => (p.1, fs, p.2)

/-- The response of the delete endpoint. -/
inductive DeleteResult where
  | badRequest
  | okDeleted (path : String) (trash : List TrashEntry)
  | notFound
  | serverError
deriving DecidableEq

/-- `handleDelete` (src/server.js:653-682) after target extraction: 400 when
no target, 404 on `ENOENT`, 500 on other errors, otherwise 200 with the
normalized path. -/
def handleDelete (fs : List FsEntry) (trash : List TrashEntry) (target : Option String)
    (freshId : String) (now : Nat) : DeleteResult :=
  match target with
  | none => .badRequest
  | some t =>
    match markAsTrashed fs trash t freshId now with
    | .ok (e, _, trash') => .okDeleted e.path trash'
    | .error .enoent => .notFound
    | .error .invalidPath => .serverError

/-- One admin operation against the trash manifest. -/
inductive TrashOp where
  | del (relPath freshId : String) (now : Nat)
  | restore (i : String)

/-- Apply one operation to the manifest, keeping it unchanged when the
operation fails (the endpoint then reports an error without writing). -/
def applyOp (fs : List FsEntry) (trash : List TrashEntry) : TrashOp → List TrashEntry
  | .del p freshId now =>
    match markAsTrashed fs trash p freshId now with
    | .ok (_, _, trash') => trash'
    | .error _ => trash
  | .restore i =>
    match restoreTrashEntry fs trash i with
    | some (_, _, trash') => trash'
    | none => trash

/-- Run a sequence of delete/restore operations from the empty manifest. -/
def runOps (fs : List FsEntry) (ops : List TrashOp) : List TrashEntry :=
  ops.foldl (applyOp fs) []

/-! ## Filename allocator -/

/-- Little-endian decimal digits, driven by a fuel that only bounds the
recursion depth (`fuel = n` always suffices since `n / 10 < n`). -/
def natDigitsRevAux (fuel n : Nat) : List Nat :=
  match fuel with
  | 0 => []
  | fuel + 1 => if n = 0 then [] else n % 10 :: natDigitsRevAux fuel (n / 10)

/-- Little-endian decimal digits of a natural number (empty for `0`). -/
def natDigitsRev (n : Nat) : List Nat := natDigitsRevAux n n

/-- The character of a decimal digit. -/
def digitChar (d : Nat) : Char := Char.ofNat (48 + d)

/-- Decimal rendering of a natural number, as the JS template `${counter}`
renders the counter. -/
def natToString (n : Nat) : String :=
  if n = 0 then "0" else String.mk ((natDigitsRev n).reverse.map digitChar)

/-- `path.extname`: the suffix of the basename from its last `.`, empty when
the basename has no `.` past its first character. -/
def extname (s : String) : String :=
  let ds := (basename s).data
  match ds.reverse.findIdx? (· = '.') with
  | none => ""
  | some j =>
    let pos := ds.length - 1 - j
    if pos = 0 then "" else String.mk (ds.drop pos)

/-- `baseName.slice(0, -ext.length)` — including the JS quirk that
`slice(0, -0)` is the empty string when the extension is empty. -/
def baseOf (baseName ext : String) : String :=
  if ext.data.length = 0 then ""
  else String.mk (baseName.data.take (baseName.data.length - ext.data.length))

/-- The candidate `` `${base}-${counter}${ext}` `` probed after a collision. -/
def probeName (base ext : String) (counter : Nat) : String :=
  base ++ "-" ++ natToString counter ++ ext

/-- The probe loop of `uniqueFilename` (src/server.js:184-195).  `fsp.access`
succeeding is membership of the candidate in the directory listing `dir`; an
`ENOENT` failure ends the loop with the candidate.  The loop in the source is
unbounded; the fuel argument only bounds the recursion depth and is chosen
large enough to never run out (`uniqueFilename_total` below). -/
def uniqueFilenameLoop (dir : List String) (base ext : String) :
    String → Nat → Nat → Option String
  | _, _, 0 => none
  | candidate, counter, fuel + 1 =>
    if candidate ∈ dir then
      uniqueFilenameLoop dir base ext (probeName base ext counter) (counter + 1) fuel
    else some candidate

/-- `uniqueFilename(baseName, dir)` (src/server.js:179-196). -/
def uniqueFilename (baseName : String) (dir : List String) : Option String :=
  uniqueFilenameLoop dir (baseOf baseName (extname baseName)) (extname baseName)
    baseName 1 (dir.length + 2)

/-! ## Slot layout engine -/

/-- A slot definition as produced by `readSlotDefinitions`
(src/server.js:331-350): `null` fields are `none`; non-finite numbers are
already turned into `null` by the reader. -/
structure SlotDef where
  slot : ℚ
  row : Option ℚ
  col : Option ℚ
  x : Option ℚ
  y : Option ℚ
  w : Option ℚ
  h : Option ℚ
  disabled : Bool
deriving DecidableEq

/-- A positioned item returned by `listSlots` (src/server.js:550-560). -/
structure SlotItem where
  filename : String
  row : Option ℚ
  col : Option ℚ
  x : ℤ
  y : ℤ
  w : ℤ
  h : ℤ
  updatedAt : Nat
  url : String
deriving DecidableEq

/-- The sort `.sort((a, b) => a.slot - b.slot)` closing `readSlotDefinitions`
(src/server.js:350), modelled by the stable `insertionSort`. -/
def sortedSlotDefs (slotDefs : List SlotDef) : List SlotDef :=
  List.insertionSort (fun a b => a.slot ≤ b.slot) slotDefs

/-- The `activeSlots` filter of `listSlots` (src/server.js:500-502): enabled
slots with finite row and column. -/
def activeSlotsOf (slotDefs : List SlotDef) : List SlotDef :=
  (sortedSlotDefs slotDefs).filter fun s => !s.disabled && (s.row.isSome && s.col.isSome)

/-- `visibleSlots = activeSlots.slice(0, SLOT_COUNT)` (src/server.js:507). -/
def visibleSlotsOf (slotDefs : List SlotDef) : List SlotDef :=
  (activeSlotsOf slotDefs).take SLOT_COUNT

/-- `cellWidth` (src/server.js:521-522). -/
def gridCellWidth : ℚ :=
  (OVERLAY_WIDTH - PADDING_LEFT - PADDING_RIGHT - GAP * (COLUMNS - 1)) / COLUMNS

/-- `cellHeight` (src/server.js:523): the default 600:400 aspect ratio. -/
def gridCellHeight : ℚ := gridCellWidth * DEFAULT_IMAGE_HEIGHT / DEFAULT_IMAGE_WIDTH

/-- `leftOrigin = OVERLAY_LEFT + PADDING_LEFT` (src/server.js:524). -/
def leftOrigin : ℚ := OVERLAY_LEFT + PADDING_LEFT

/-- `resolveBatchIndex` (src/server.js:409-415); a `none` index models the
non-finite (`null`/absent) stored selection. -/
def resolveBatchIndex (index : Option ℤ) (total : Nat) : Option ℤ :=
  if total ≤ 0 then none
  else
    match index with
    | none => some 0
    | some i => if i < 0 then some 0 else if i ≥ (total : ℤ) then some ((total : ℤ) - 1) else some i

/-- The non-trashed images in index order (src/server.js:508). -/
def visibleImagesOf (entries : List FsEntry) (mtime : String → Nat)
    (trash : List TrashEntry) : List String :=
  (orderedImages entries mtime).filter fun p => !((trash.map (·.path)).contains p)

/-- `Math.ceil(visibleImages.length / SLOT_COUNT)` (src/server.js:509). -/
def totalBatchesOf (entries : List FsEntry) (mtime : String → Nat)
    (trash : List TrashEntry) : Nat :=
  ((visibleImagesOf entries mtime trash).length + (SLOT_COUNT - 1)) / SLOT_COUNT

/-- The selected batch window `visibleImages.slice(start, start + SLOT_COUNT)`
(src/server.js:510-515); empty when the selection resolves to `null`. -/
def batchImagesOf (entries : List FsEntry) (mtime : String → Nat)
    (trash : List TrashEntry) (stored : Option ℤ) : List String :=
  match resolveBatchIndex stored (totalBatchesOf entries mtime trash) with
  | none => []
  | some sel =>
    (((visibleImagesOf entries mtime trash).drop (sel.toNat * SLOT_COUNT)).take SLOT_COUNT)

/-- The per-item body of `listSlots` (src/server.js:528-561) applied to a slot
paired with its image path.  `pngSize` is the outcome of `getPngSize` per path
(`none` models the swallowed failure, falling back to the default aspect). -/
def slotItemOf (pngSize : String → Option (Nat × Nat)) (mtime : String → Nat) (now : Nat)
    (p : SlotDef × String) : SlotItem :=
  let slot := p.1
  let relPath := p.2
  let width : ℚ := slot.w.getD gridCellWidth
  let height : ℚ :=
    match pngSize relPath with
    | some wh => width * (wh.2 : ℚ) / (wh.1 : ℚ)
    | none => slot.h.getD gridCellHeight
  { filename := basename relPath
    row := slot.row
    col := slot.col
    x := jsRound (slot.x.getD (leftOrigin + slot.col.getD 0 * (gridCellWidth + GAP)))
    y := jsRound (slot.y.getD (PADDING_TOP + slot.row.getD 0 * (gridCellHeight + GAP)))
    w := jsRound width
    h := jsRound height
    updatedAt := if mtime relPath = 0 then now else mtime relPath
    url := "/uploads/" ++ relPath }

/-- `listSlots` (src/server.js:495-565).  The two early `return []` branches
(null selection, empty batch window) coincide with the zip over an empty
`batchImagesOf`; `count = Math.min(visibleSlots.length, batchImages.length)`
makes `batchImages[index]` always defined, so the `!relPath → null` guard and
the closing `filter(Boolean)` never act. -/
def listSlots (slotDefs : List SlotDef) (entries : List FsEntry) (mtime : String → Nat)
    (trash : List TrashEntry) (stored : Option ℤ) (pngSize : String → Option (Nat × Nat))
    (now : Nat) : Except String (List SlotItem) :=
  if (activeSlotsOf slotDefs).length < SLOT_COUNT then
    .error "slot.json must have at least 24 enabled slots"
  else
    let visible := visibleSlotsOf slotDefs
    let batch := batchImagesOf entries mtime trash stored
    let count := min visible.length batch.length
    .ok (((visible.take count).zip batch).map (slotItemOf pngSize mtime now))

/-! ## Sessions and route gating -/

/-- `const SESSION_COOKIE = "admin_session"` (src/server.js:34). -/
def SESSION_COOKIE : String := "admin_session"

/-- `getSessionToken` (src/server.js:72-83): `cookies` is the parsed cookie
map of the request, `sessions` the in-memory token-to-expiry map, `now` is
`Date.now()`.  (The deletion of an expired token only mutates the map; the
returned value is `null` either way.) -/
def getSessionToken (cookies : String → Option String) (sessions : List (String × Nat))
    (now : Nat) : Option String :=
  match cookies SESSION_COOKIE with
  | none => none
  | some token =>
    match sessions.lookup token with
    | none => none
    | some expiresAt => if now > expiresAt then none else some token

/-- `requireAdmin` (src/server.js:113-120) as the gating predicate: `true`
when the request carries a valid, unexpired session. -/
def requireAdmin (cookies : String → Option String) (sessions : List (String × Nat))
    (now : Nat) : Bool :=
  (getSessionToken cookies sessions now).isSome

/-- What the router does with a request, abstracting the handler bodies. -/
inductive RouteResult where
  | unauthorized
  | api (name : String)
  | uploadsFile
  | publicFile
  | methodNotAllowed
deriving DecidableEq

/-- The request dispatch chain of the server (src/server.js:684-837), in
source order. -/
def route (method pathname : String) (cookies : String → Option String)
    (sessions : List (String × Nat)) (now : Nat) : RouteResult :=
  let auth := requireAdmin cookies sessions now
  if method = "GET" ∧ pathname = "/api/list" then
    if auth then .api "list" else .unauthorized
  else if method = "GET" ∧ pathname = "/api/folders" then
    if auth then .api "folders" else .unauthorized
  else if method = "GET" ∧ pathname = "/api/trash" then
    if auth then .api "trash" else .unauthorized
  else if method = "GET" ∧ pathname = "/api/batches" then
    if auth then .api "batches" else .unauthorized
  else if method = "POST" ∧ pathname = "/api/batches/select" then
    if auth then .api "batches/select" else .unauthorized
  else if method = "POST" ∧ pathname = "/api/restore" then
    if auth then .api "restore" else .unauthorized
  else if method = "GET" ∧ pathname = "/api/slots" then .api "slots"
  else if method = "POST" ∧ pathname = "/api/upload" then .api "upload"
  else if method = "POST" ∧ pathname = "/api/login" then .api "login"
  else if method = "POST" ∧ pathname = "/api/logout" then .api "logout"
  else if method = "DELETE" ∧ pathname = "/api/delete" then
    if auth then .api "delete" else .unauthorized
  else if method = "POST" ∧ pathname = "/api/delete" then
    if auth then .api "delete" else .unauthorized
  else if method = "GET" ∧ strStartsWith pathname "/uploads/" then .uploadsFile
  else if method = "GET" then .publicFile
  else .methodNotAllowed

/-! ## Concrete instances used by counterexamples and witnesses -/

/-- An enabled grid slot with number `n` at row `r`, column `c`, and no
explicit overrides. -/
def gSlot (n r c : ℚ) : SlotDef :=
  { slot := n, row := some r, col := some c, x := none, y := none, w := none,
    h := none, disabled := false }

/-- The plain 6-column grid: slot `i+1` at row `i / 6`, column `i % 6`, no
explicit overrides, all enabled. -/
def stdSlotDefs : List SlotDef :=
  [gSlot 1 0 0, gSlot 2 0 1, gSlot 3 0 2, gSlot 4 0 3, gSlot 5 0 4, gSlot 6 0 5,
   gSlot 7 1 0, gSlot 8 1 1, gSlot 9 1 2, gSlot 10 1 3, gSlot 11 1 4, gSlot 12 1 5,
   gSlot 13 2 0, gSlot 14 2 1, gSlot 15 2 2, gSlot 16 2 3, gSlot 17 2 4, gSlot 18 2 5,
   gSlot 19 3 0, gSlot 20 3 1, gSlot 21 3 2, gSlot 22 3 3, gSlot 23 3 4, gSlot 24 3 5]

/-- A 24-byte PNG header with the full 8-byte signature and the given
width and height (both < 256). -/
def pngBytesOf (w h : Nat) : List Nat :=
  [137, 80, 78, 71, 13, 10, 26, 10, 0, 0, 0, 13, 73, 72, 68, 82,
   0, 0, 0, w, 0, 0, 0, h]

/-- Seven uploads: `a0.png` is a square 100×100 PNG, the others have
unreadable headers (empty files). -/
def exEntries : List FsEntry :=
  [.file "a0.png" (pngBytesOf 100 100), .file "a1.png" [], .file "a2.png" [],
   .file "a3.png" [], .file "a4.png" [], .file "a5.png" [], .file "a6.png" []]

/-- `getPngSize` over `exEntries`, with the thrown errors turned into the
swallowed `none` of the `listSlots` call site. -/
def exPngSize (p : String) : Option (Nat × Nat) :=
  (lookupFile exEntries (splitPath p)).bind fun b => (getPngSize b).toOption

/-- All seven files share one modification time, so the index order is the
enumeration order. -/
def exMtime : String → Nat := fun _ => 7

/-- The slot endpoint's batch for the seven uploads on the plain grid. -/
def exRun : Except String (List SlotItem) :=
  listSlots stdSlotDefs exEntries exMtime [] none exPngSize 0

/-- The items of `exRun` (defaulting to `[]`, which `exRun` is not). -/
def exItems : List SlotItem := exRun.toOption.getD []

/-! ### Evaluation lemmas for the concrete run -/

lemma exRun_eq_ok : exRun = .ok exItems := by
  have h : exRun = .ok (((visibleSlotsOf stdSlotDefs).take
      (min (visibleSlotsOf stdSlotDefs).length
        (batchImagesOf exEntries exMtime [] none).length)).zip
      (batchImagesOf exEntries exMtime [] none) |>.map (slotItemOf exPngSize exMtime 0)) := by
    simp only [exRun, listSlots]
    rw [if_neg (by decide)]
  rw [exItems, h]
  rfl

lemma exItems_y : exItems.map (·.y) = [100, 100, 100, 100, 100, 100, 497] := by
  have h1 : activeSlotsOf stdSlotDefs = stdSlotDefs := by decide
  have h2 : batchImagesOf exEntries exMtime [] none =
      ["a0.png", "a1.png", "a2.png", "a3.png", "a4.png", "a5.png", "a6.png"] := by decide
  have h3 : exPngSize "a0.png" = some (100, 100) := by decide
  have h4 : exPngSize "a1.png" = none := by decide
  have h5 : exPngSize "a2.png" = none := by decide
  have h6 : exPngSize "a3.png" = none := by decide
  have h7 : exPngSize "a4.png" = none := by decide
  have h8 : exPngSize "a5.png" = none := by decide
  have h9 : exPngSize "a6.png" = none := by decide
  simp only [exItems, exRun, listSlots, visibleSlotsOf, h1, h2, SLOT_COUNT]
  norm_num [stdSlotDefs, gSlot, slotItemOf, h3, h4, h5, h6, h7, h8, h9, Except.toOption,
    jsRound, gridCellHeight, gridCellWidth, leftOrigin, OVERLAY_WIDTH, OVERLAY_LEFT,
    PADDING_TOP, PADDING_LEFT, PADDING_RIGHT, GAP, COLUMNS, DEFAULT_IMAGE_WIDTH,
    DEFAULT_IMAGE_HEIGHT]

lemma exItems_h : exItems.map (·.h) = [521, 347, 347, 347, 347, 347, 347] := by
  have h1 : activeSlotsOf stdSlotDefs = stdSlotDefs := by decide
  have h2 : batchImagesOf exEntries exMtime [] none =
      ["a0.png", "a1.png", "a2.png", "a3.png", "a4.png", "a5.png", "a6.png"] := by decide
  have h3 : exPngSize "a0.png" = some (100, 100) := by decide
  have h4 : exPngSize "a1.png" = none := by decide
  have h5 : exPngSize "a2.png" = none := by decide
  have h6 : exPngSize "a3.png" = none := by decide
  have h7 : exPngSize "a4.png" = none := by decide
  have h8 : exPngSize "a5.png" = none := by decide
  have h9 : exPngSize "a6.png" = none := by decide
  simp only [exItems, exRun, listSlots, visibleSlotsOf, h1, h2, SLOT_COUNT]
  norm_num [stdSlotDefs, gSlot, slotItemOf, h3, h4, h5, h6, h7, h8, h9, Except.toOption,
    jsRound, gridCellHeight, gridCellWidth, leftOrigin, OVERLAY_WIDTH, OVERLAY_LEFT,
    PADDING_TOP, PADDING_LEFT, PADDING_RIGHT, GAP, COLUMNS, DEFAULT_IMAGE_WIDTH,
    DEFAULT_IMAGE_HEIGHT]

lemma exItems_x : exItems.map (·.x) = [1252, 1823, 2394, 2965, 3536, 4107, 1252] := by
  have h1 : activeSlotsOf stdSlotDefs = stdSlotDefs := by decide
  have h2 : batchImagesOf exEntries exMtime [] none =
      ["a0.png", "a1.png", "a2.png", "a3.png", "a4.png", "a5.png", "a6.png"] := by decide
  have h3 : exPngSize "a0.png" = some (100, 100) := by decide
  have h4 : exPngSize "a1.png" = none := by decide
  have h5 : exPngSize "a2.png" = none := by decide
  have h6 : exPngSize "a3.png" = none := by decide
  have h7 : exPngSize "a4.png" = none := by decide
  have h8 : exPngSize "a5.png" = none := by decide
  have h9 : exPngSize "a6.png" = none := by decide
  simp only [exItems, exRun, listSlots, visibleSlotsOf, h1, h2, SLOT_COUNT]
  norm_num [stdSlotDefs, gSlot, slotItemOf, h3, h4, h5, h6, h7, h8, h9, Except.toOption,
    jsRound, gridCellHeight, gridCellWidth, leftOrigin, OVERLAY_WIDTH, OVERLAY_LEFT,
    PADDING_TOP, PADDING_LEFT, PADDING_RIGHT, GAP, COLUMNS, DEFAULT_IMAGE_WIDTH,
    DEFAULT_IMAGE_HEIGHT]

/-! ## C1: grid-derived row offsets -/

/--
C1 (counterexample).  The claim that an item in row `r` is placed at
`y = topPadding + (sum of the max item heights of rows 0..r-1) + r·gap` fails:
with seven images on the plain grid, the square image `a0.png` gives row 0 the
item heights `[521, 347, 347, 347, 347, 347]` (max 521), so the claim puts the
row-1 item at `100 + 521 + 50 = 671`; the code places it at
`round(100 + cellHeight + 50) = 497`.
-/
theorem listSlots_row_offset_cx :
    exItems.map (·.y) = [100, 100, 100, 100, 100, 100, 497] ∧
    exItems.map (·.h) = [521, 347, 347, 347, 347, 347, 347] ∧
    jsRound (PADDING_TOP + 521 + GAP) = 671 ∧ (497 : ℤ) ≠ 671 :=
  ⟨exItems_y, exItems_h, by norm_num [jsRound, PADDING_TOP, GAP], by decide⟩

/--
C1 (amended).  Each rendered item's `y` is `round(slot.y)` when the slot has
an explicit `y`, and otherwise `round(topPadding + row · (cellHeight + gap))`
with the constant default cell height — a uniform row pitch that does not
depend on the images or their aspect ratios (the right-hand side mentions
neither the image sizes nor the filesystem contents beyond the batch length).
-/
theorem listSlots_y_offsets (sd : List SlotDef) (entries : List FsEntry)
    (mtime : String → Nat) (trash : List TrashEntry) (stored : Option ℤ)
    (ps : String → Option (Nat × Nat)) (now : Nat) (items : List SlotItem)
    (h : listSlots sd entries mtime trash stored ps now = .ok items) :
    items.map (·.y) =
      ((visibleSlotsOf sd).take
          (min (visibleSlotsOf sd).length (batchImagesOf entries mtime trash stored).length)).map
        (fun s => jsRound (s.y.getD (PADDING_TOP + s.row.getD 0 * (gridCellHeight + GAP)))) := by
  unfold listSlots at h
  split at h
  · exact absurd h (by simp)
  · simp only [Except.ok.injEq] at h
    subst h
    rw [List.map_map]
    have hfst :
        ((visibleSlotsOf sd).take
            (min (visibleSlotsOf sd).length
              (batchImagesOf entries mtime trash stored).length)).length ≤
          (batchImagesOf entries mtime trash stored).length := by
      simp [List.length_take]
    calc
      (((visibleSlotsOf sd).take
            (min (visibleSlotsOf sd).length
              (batchImagesOf entries mtime trash stored).length)).zip
          (batchImagesOf entries mtime trash stored)).map
        ((fun it => it.y) ∘ slotItemOf ps mtime now)
        = (((visibleSlotsOf sd).take
              (min (visibleSlotsOf sd).length
                (batchImagesOf entries mtime trash stored).length)).zip
            (batchImagesOf entries mtime trash stored)).map
          ((fun s => jsRound (s.y.getD (PADDING_TOP + s.row.getD 0 * (gridCellHeight + GAP)))) ∘
            Prod.fst) := rfl
      _ = _ := by rw [← List.map_map, List.map_fst_zip _ _ hfst]

/-- C1 witness: the amended theorem applied to the concrete seven-upload run. -/
theorem listSlots_y_offsets_witness :
    exItems.map (·.y) =
      ((visibleSlotsOf stdSlotDefs).take
          (min (visibleSlotsOf stdSlotDefs).length
            (batchImagesOf exEntries exMtime [] none).length)).map
        (fun s => jsRound (s.y.getD (PADDING_TOP + s.row.getD 0 * (gridCellHeight + GAP)))) :=
  listSlots_y_offsets stdSlotDefs exEntries exMtime [] none exPngSize 0 exItems exRun_eq_ok

/-! ## C2: the numeric cell-width example -/

/--
C2 (counterexample).  The computed cell width is
`(3576 - 100 - 100 - 50·5) / 6 = 521`, not the claimed `554.33`.
-/
theorem gridCellWidth_cx : gridCellWidth = 521 ∧ gridCellWidth ≠ 55433 / 100 := by
  constructor
  · norm_num [gridCellWidth, OVERLAY_WIDTH, PADDING_LEFT, PADDING_RIGHT, GAP, COLUMNS]
  · norm_num [gridCellWidth, OVERLAY_WIDTH, PADDING_LEFT, PADDING_RIGHT, GAP, COLUMNS]

/--
C2 (amended).  With columns = 6, overlayWidth = 3576, paddings 100 and
gap 50, the cell width `(3576 - 100 - 100 - 50·5)/6` equals exactly 521
(`554.33` in the spec is wrong), and the first item of the concrete grid batch
(index 0, row 0, col 0) is placed at `x = 1152 + 100 = 1252`,
`y = topPadding = 100` after rounding to integer pixels.
-/
theorem gridCellWidth_first_item :
    gridCellWidth = 521 ∧
    (exItems.map (·.x)).get? 0 = some 1252 ∧ (exItems.map (·.y)).get? 0 = some 100 := by
  refine ⟨?_, ?_, ?_⟩
  · norm_num [gridCellWidth, OVERLAY_WIDTH, PADDING_LEFT, PADDING_RIGHT, GAP, COLUMNS]
  · rw [exItems_x]; rfl
  · rw [exItems_y]; rfl

/-! ## C3: path sandboxing -/

lemma absolute_data (s : String) (h : isAbsolutePath s = true) : ∃ t, s.data = '/' :: t := by
  have h' : List.isPrefixOf ['/'] s.data = true := h
  cases hd : s.data with
  | nil => rw [hd] at h'; exact absurd h' (by decide)
  | cons c t =>
    rw [hd] at h'
    simp [List.isPrefixOf] at h'
    exact ⟨t, by rw [h']⟩

lemma pathNormalize_abs (s : String) (h : isAbsolutePath s = true) :
    isAbsolutePath (pathNormalize s) = true := by
  obtain ⟨t, ht⟩ := absolute_data s h
  have hne : s ≠ "" := by
    intro e
    rw [e] at ht
    exact absurd ht (by simp)
  simp only [pathNormalize, if_neg hne, h, if_true]
  split
  · decide
  · show List.isPrefixOf ['/'] _ = true
    simp [List.isPrefixOf]

lemma stripDD_slash (t : List Char) : stripDD ('/' :: t) = '/' :: t := by
  rw [stripDD.eq_def]
  simp

/--
C3 (amended).  `safeUploadsPath` rejects every absolute-path input; every path
it accepts resolves to the upload root or strictly inside it;
`"batch-0001/x.png"` resolves inside the root.  But `"../../etc/passwd"` is
not rejected: the leading traversal segments are stripped and the input is
neutralised to `<root>/etc/passwd` inside the root.
-/
theorem safeUploadsPath_spec :
    (∀ s, isAbsolutePath s = true → safeUploadsPath s = .error "Invalid path") ∧
    (∀ s r, safeUploadsPath s = .ok r →
      r = UPLOAD_DIR ∨ strStartsWith r (UPLOAD_DIR ++ "/") = true) ∧
    safeUploadsPath "batch-0001/x.png" = .ok "/app/uploads/batch-0001/x.png" ∧
    safeUploadsPath "../../etc/passwd" = .ok "/app/uploads/etc/passwd" := by
  refine ⟨?_, ?_, by decide, by decide⟩
  · intro s h
    have h2 : isAbsolutePath (stripLeadingDotDot (pathNormalize s)) = true := by
      obtain ⟨t, ht⟩ := absolute_data _ (pathNormalize_abs s h)
      unfold stripLeadingDotDot
      rw [ht, stripDD_slash]
      show List.isPrefixOf ['/'] _ = true
      simp [List.isPrefixOf]
    simp only [safeUploadsPath, h2, if_true]
  · intro s r h
    simp only [safeUploadsPath] at h
    split at h
    · exact absurd h (by simp)
    · split at h
      · exact absurd h (by simp)
      · simp only [Except.ok.injEq] at h
        subst h
        rename_i hcond
        rcases not_and_or.mp hcond with h1 | h2
        · exact Or.inl (not_not.mp h1)
        · simp only [Bool.not_eq_false] at h2
          exact Or.inr h2

/--
C3 (counterexample).  `"../../etc/passwd"` is not rejected with an error: the
resolver returns successfully, with the traversal neutralised to a path inside
the root.
-/
theorem safeUploadsPath_traversal_cx :
    safeUploadsPath "../../etc/passwd" = .ok "/app/uploads/etc/passwd" := by decide

/-- C3 witness: the amended theorem applied to `"/etc/passwd"` and to an
accepted concrete resolution. -/
theorem safeUploadsPath_spec_witness :
    safeUploadsPath "/etc/passwd" = .error "Invalid path" ∧
    ("/app/uploads/x.png" = UPLOAD_DIR ∨
      strStartsWith "/app/uploads/x.png" (UPLOAD_DIR ++ "/") = true) :=
  ⟨safeUploadsPath_spec.1 "/etc/passwd" (by decide),
   safeUploadsPath_spec.2.1 "x.png" "/app/uploads/x.png" (by decide)⟩

/-! ## C4: PNG header reader -/

/-- A 24-byte header whose first four bytes match `0x89504e47` but whose
bytes 4–7 are not the PNG signature's `\r\n\x1a\n`. -/
def badPngBytes : List Nat :=
  [137, 80, 78, 71, 0, 0, 0, 0, 0, 0, 0, 0, 0, 0, 0, 0, 0, 0, 0, 1, 0, 0, 0, 1]

/--
C4 (counterexample).  The reader does not fail whenever the 8-byte PNG
signature is absent: it checks only the first four bytes, so a header whose
bytes 4–7 differ from the signature is still accepted.
-/
theorem getPngSize_signature_cx :
    badPngBytes.take 8 ≠ pngSignature ∧ getPngSize badPngBytes = .ok (1, 1) := by
  refine ⟨by decide, by decide⟩

/--
C4 (amended).  The reader fails with `FormatError` exactly when the first
*four* signature bytes (read as the big-endian word at offset 0) differ from
`0x89504e47`; otherwise it reads width and height as big-endian 32-bit
integers at offsets 16 and 20 and fails when either is zero (a `readUInt32BE`
result is always finite, so the non-finite check never fires).
-/
theorem getPngSize_spec :
    (∀ bytes, readUInt32BE bytes 0 ≠ 0x89504e47 → getPngSize bytes = .error "Not a PNG") ∧
    (∀ bytes, readUInt32BE bytes 0 = 0x89504e47 →
      (readUInt32BE bytes 16 = 0 ∨ readUInt32BE bytes 20 = 0 →
        getPngSize bytes = .error "Invalid PNG size") ∧
      (readUInt32BE bytes 16 ≠ 0 → readUInt32BE bytes 20 ≠ 0 →
        getPngSize bytes = .ok (readUInt32BE bytes 16, readUInt32BE bytes 20))) := by
  constructor
  · intro bytes h
    simp only [getPngSize, if_pos h]
  · intro bytes h
    constructor
    · intro hz
      simp only [getPngSize, h, if_pos]
      rw [if_neg (by simp), if_pos hz]
    · intro hw hh
      simp only [getPngSize]
      rw [if_neg (by simp [h]), if_neg (by simp [hw, hh])]

/-- C4 witness: the amended theorem applied to an empty file and to a
well-formed 100×100 header. -/
theorem getPngSize_spec_witness :
    getPngSize [] = .error "Not a PNG" ∧
    getPngSize (pngBytesOf 100 100) = .ok (100, 100) := by
  refine ⟨getPngSize_spec.1 [] (by decide), ?_⟩
  rw [(getPngSize_spec.2 (pngBytesOf 100 100) (by decide)).2 (by decide) (by decide)]
  decide

/-! ## C8: the Ordered-Image Index -/

/--
C8 (confirmed).  For any upload tree (top-level `.png` files plus one level of
`batch-\d{4}` subfolders) the index has exactly as many entries as there are
PNG files; it is non-decreasing in modification time; any two files that are
already in non-decreasing mtime order in the enumeration keep their relative
order (so ties are broken by enumeration order); and the output is a
permutation of the enumerated stats.
-/
theorem orderedImages_spec (entries : List FsEntry) (mtime : String → Nat) :
    (orderedStats entries mtime).length = (imageFiles entries).length ∧
    List.Pairwise (fun a b : String × Nat => a.2 ≤ b.2) (orderedStats entries mtime) ∧
    (∀ a b : String × Nat,
      List.Sublist [a, b] ((imageFiles entries).map (fun p => (p, mtime p))) → a.2 ≤ b.2 →
      List.Sublist [a, b] (orderedStats entries mtime)) ∧
    List.Perm (orderedStats entries mtime)
      ((imageFiles entries).map (fun p => (p, mtime p))) := by
  refine ⟨?_, ?_, ?_, ?_⟩
  · simp [orderedStats]
  · haveI : IsTotal (String × Nat) (fun a b => a.2 ≤ b.2) :=
      ⟨fun a b => Nat.le_total a.2 b.2⟩
    haveI : IsTrans (String × Nat) (fun a b => a.2 ≤ b.2) :=
      ⟨fun _ _ _ => Nat.le_trans⟩
    exact List.sorted_insertionSort _ _
  · intro a b hs hab
    exact List.pair_sublist_insertionSort hab hs
  · exact List.perm_insertionSort _ _

/-- C8 witness: the stability conclusion at a concrete tied pair of the
seven-upload tree. -/
theorem orderedImages_spec_witness :
    List.Sublist [("a0.png", 7), ("a1.png", 7)] (orderedStats exEntries exMtime) :=
  (orderedImages_spec exEntries exMtime).2.2.1 _ _ (by decide) (by decide)

/-! ## C10: route authentication gating -/

lemma requireAdmin_iff (cookies : String → Option String) (sessions : List (String × Nat))
    (now : Nat) :
    requireAdmin cookies sessions now = true ↔
      ∃ t e, cookies SESSION_COOKIE = some t ∧ sessions.lookup t = some e ∧ now ≤ e := by
  unfold requireAdmin getSessionToken
  cases hc : cookies SESSION_COOKIE with
  | none => simp [hc]
  | some t =>
    cases hs : sessions.lookup t with
    | none => simp [hs]
    | some e =>
      by_cases hn : now > e
      · simp only [hs, if_pos hn, Option.isSome_none]
        constructor
        · intro h; cases h
        · rintro ⟨t', e', ht', hs', hle⟩
          rw [Option.some.injEq] at ht'
          subst ht'
          rw [hs, Option.some.injEq] at hs'
          subst hs'
          omega
      · simp only [hs, if_neg hn, Option.isSome_some, true_iff]
        exact ⟨t, e, rfl, hs, by omega⟩

/--
C10 (confirmed).  `GET /api/slots` and `POST /api/upload` are never answered
401 whatever the session state; each of `GET /api/list`, `/api/folders`,
`/api/trash`, `/api/batches`, `POST /api/batches/select`, `/api/restore`,
`POST /api/delete` and `DELETE /api/delete` is answered 401 exactly when the
request lacks a valid session; and a valid session means exactly a cookie
whose token is in the session store with an unexpired deadline.
-/
theorem route_auth_spec (cookies : String → Option String) (sessions : List (String × Nat))
    (now : Nat) :
    route "GET" "/api/slots" cookies sessions now ≠ .unauthorized ∧
    route "POST" "/api/upload" cookies sessions now ≠ .unauthorized ∧
    (route "GET" "/api/list" cookies sessions now = .unauthorized ↔
      requireAdmin cookies sessions now = false) ∧
    (route "GET" "/api/folders" cookies sessions now = .unauthorized ↔
      requireAdmin cookies sessions now = false) ∧
    (route "GET" "/api/trash" cookies sessions now = .unauthorized ↔
      requireAdmin cookies sessions now = false) ∧
    (route "GET" "/api/batches" cookies sessions now = .unauthorized ↔
      requireAdmin cookies sessions now = false) ∧
    (route "POST" "/api/batches/select" cookies sessions now = .unauthorized ↔
      requireAdmin cookies sessions now = false) ∧
    (route "POST" "/api/restore" cookies sessions now = .unauthorized ↔
      requireAdmin cookies sessions now = false) ∧
    (route "POST" "/api/delete" cookies sessions now = .unauthorized ↔
      requireAdmin cookies sessions now = false) ∧
    (route "DELETE" "/api/delete" cookies sessions now = .unauthorized ↔
      requireAdmin cookies sessions now = false) ∧
    (requireAdmin cookies sessions now = true ↔
      ∃ t e, cookies SESSION_COOKIE = some t ∧ sessions.lookup t = some e ∧ now ≤ e) := by
  refine ⟨?_, ?_, ?_, ?_, ?_, ?_, ?_, ?_, ?_, ?_, requireAdmin_iff cookies sessions now⟩ <;>
    cases h : requireAdmin cookies sessions now <;> simp [route, h]

/-- C10 witness: a request with no cookies is served by `/api/slots` and
401-gated on `/api/list`. -/
theorem route_auth_spec_witness :
    route "GET" "/api/slots" (fun _ => none) [] 0 ≠ .unauthorized ∧
    (route "GET" "/api/list" (fun _ => none) [] 0 = .unauthorized ↔
      requireAdmin (fun _ => none) [] 0 = false) :=
  ⟨(route_auth_spec (fun _ => none) [] 0).1, (route_auth_spec (fun _ => none) [] 0).2.2.1⟩

/-! ## C6, C7, C9: the trash manifest -/

lemma markAsTrashed_enoent (fs : List FsEntry) (trash : List TrashEntry)
    (p freshId : String) (now : Nat) (sp : String)
    (hok : safeUploadsPath p = .ok sp)
    (hnone : lookupFile fs (splitPath (relFromUploads sp)) = none) :
    markAsTrashed fs trash p freshId now = .error .enoent := by
  simp only [markAsTrashed, hok, hnone]
  rfl

lemma markAsTrashed_existing (fs : List FsEntry) (trash : List TrashEntry)
    (p freshId : String) (now : Nat) (sp : String) (e : TrashEntry)
    (hok : safeUploadsPath p = .ok sp)
    (hsome : (lookupFile fs (splitPath (relFromUploads sp))).isSome = true)
    (hfind : trash.find? (fun x => x.path = relFromUploads sp) = some e) :
    markAsTrashed fs trash p freshId now = .ok (e, fs, trash) := by
  simp only [markAsTrashed, hok, hsome, if_true, hfind]

lemma markAsTrashed_new (fs : List FsEntry) (trash : List TrashEntry)
    (p freshId : String) (now : Nat) (sp : String)
    (hok : safeUploadsPath p = .ok sp)
    (hsome : (lookupFile fs (splitPath (relFromUploads sp))).isSome = true)
    (hfind : trash.find? (fun x => x.path = relFromUploads sp) = none) :
    markAsTrashed fs trash p freshId now =
      .ok ({ id := freshId, filename := basename (relFromUploads sp),
             path := relFromUploads sp, trashedAt := now }, fs,
           { id := freshId, filename := basename (relFromUploads sp),
             path := relFromUploads sp, trashedAt := now } :: trash) := by
  simp only [markAsTrashed, hok, hsome, if_true, hfind]

lemma removeById_sublist (st : List TrashEntry) (i : String) (e : TrashEntry)
    (tr' : List TrashEntry) (h : removeById st i = some (e, tr')) : List.Sublist tr' st := by
  induction st generalizing tr' with
  | nil => cases h
  | cons x rest ih =>
    simp only [removeById] at h
    split at h
    · simp only [Option.some.injEq, Prod.mk.injEq] at h
      obtain ⟨-, htr⟩ := h
      subst htr
      exact List.Sublist.cons x (List.Sublist.refl rest)
    · split at h
      · cases h
      · rename_i f rest' hrec
        simp only [Option.some.injEq, Prod.mk.injEq] at h
        obtain ⟨he, htr⟩ := h
        subst htr
        subst he
        exact List.Sublist.cons₂ x (ih rest' hrec)

lemma removeById_eq (st : List TrashEntry) (e : TrashEntry) (hmem : e ∈ st)
    (hnd : (st.map (·.id)).Nodup) :
    ∃ tr', removeById st e.id = some (e, tr') ∧
      (∀ q : TrashEntry → Bool, tr'.countP q + (if q e then 1 else 0) = st.countP q) := by
  induction st with
  | nil => cases hmem
  | cons x rest ih =>
    by_cases hx : x.id = e.id
    · have hxe : x = e := by
        rcases List.mem_cons.mp hmem with h | h
        · exact h.symm
        · exfalso
          have : x.id ∈ rest.map (·.id) := by
            rw [hx]
            exact List.mem_map_of_mem _ h
          exact (List.nodup_cons.mp hnd).1 this
      refine ⟨rest, ?_, ?_⟩
      · simp [removeById, hx, hxe]
      · intro q
        subst hxe
        simp [List.countP_cons]
    · have hmem' : e ∈ rest := by
        rcases List.mem_cons.mp hmem with h | h
        · exact absurd (by rw [h] : x.id = e.id) hx
        · exact h
      obtain ⟨tr', hrm, hcount⟩ := ih hmem' (List.nodup_cons.mp hnd).2
      refine ⟨x :: tr', ?_, ?_⟩
      · simp [removeById, hx, hrm]
      · intro q
        have := hcount q
        simp only [List.countP_cons]
        omega

lemma markAsTrashed_ok_cases (fs fs2 : List FsEntry) (st tr' : List TrashEntry)
    (p freshId : String) (now : Nat) (e : TrashEntry)
    (h : markAsTrashed fs st p freshId now = .ok (e, fs2, tr')) :
    fs2 = fs ∧ (tr' = st ∨ (tr' = e :: st ∧ ∀ x ∈ st, ¬(x.path = e.path))) := by
  simp only [markAsTrashed] at h
  split at h
  · cases h
  · split at h
    · split at h
      · simp only [Except.ok.injEq, Prod.mk.injEq] at h
        obtain ⟨he, hfs, htr⟩ := h
        exact ⟨hfs.symm, Or.inl htr.symm⟩
      · rename_i hfind
        simp only [Except.ok.injEq, Prod.mk.injEq] at h
        obtain ⟨he, hfs, htr⟩ := h
        subst he
        refine ⟨hfs.symm, Or.inr ⟨htr.symm, ?_⟩⟩
        intro x hx hpath
        have := List.find?_eq_none.mp hfind x hx
        simp only at this
        exact this (by simpa using hpath)
    · cases h

lemma applyOp_nodup (fs : List FsEntry) (st : List TrashEntry) (op : TrashOp)
    (h : (st.map (·.path)).Nodup) : ((applyOp fs st op).map (·.path)).Nodup := by
  cases op with
  | del p freshId now =>
    simp only [applyOp]
    split
    · rename_i e fs2 tr' hm
      obtain ⟨-, hcase⟩ := markAsTrashed_ok_cases fs fs2 st tr' p freshId now e hm
      rcases hcase with rfl | ⟨rfl, hnotin⟩
      · exact h
      · refine List.nodup_cons.mpr ⟨?_, h⟩
        intro hmem
        obtain ⟨x, hx, hxe⟩ := List.mem_map.mp hmem
        exact hnotin x hx hxe
    · exact h
  | restore i =>
    cases hrm : removeById st i with
    | none =>
      have heq : applyOp fs st (.restore i) = st := by
        simp [applyOp, restoreTrashEntry, hrm]
      rw [heq]; exact h
    | some v =>
      have heq : applyOp fs st (.restore i) = v.2 := by
        simp [applyOp, restoreTrashEntry, hrm]
      rw [heq]
      have hsub : List.Sublist v.2 st := removeById_sublist st i v.1 v.2 (by rw [hrm])
      exact List.Nodup.sublist (List.Sublist.map (·.path) hsub) h

/-- The existing manifest entry for the round-trip example, flagging
`a.png` as trashed. -/
def exTrashEntry : TrashEntry :=
  { id := "id0", filename := "a.png", path := "a.png", trashedAt := 0 }

/-- A one-file upload tree. -/
def exFs : List FsEntry := [.file "a.png" []]

/--
C6 (counterexample).  Deleting a path that is already in the trash manifest
does not fail with an `AlreadyTrashedError`: `markAsTrashed` succeeds,
returning the existing entry with the manifest unchanged.
-/
theorem markAsTrashed_already_cx :
    (markAsTrashed exFs [exTrashEntry] "a.png" "id1" 5).toOption.map
      (fun r => (r.1, r.2.2)) = some (exTrashEntry, [exTrashEntry]) := by decide

/--
C6 (amended).  The delete operation verifies that the source file exists
(failing with `ENOENT`, which the endpoint maps to 404); when the target is
already trashed it does not fail but returns the existing manifest record and
leaves the manifest unchanged; otherwise it prepends a new record to the front
of the manifest and returns that record; `handleDelete` maps the `ENOENT`
failure to 404 and a success to a 200 with the normalized path.
-/
theorem markAsTrashed_spec :
    (∀ fs trash p freshId now sp, safeUploadsPath p = .ok sp →
      lookupFile fs (splitPath (relFromUploads sp)) = none →
      markAsTrashed fs trash p freshId now = .error .enoent) ∧
    (∀ fs trash p freshId now sp e, safeUploadsPath p = .ok sp →
      (lookupFile fs (splitPath (relFromUploads sp))).isSome = true →
      trash.find? (fun x => x.path = relFromUploads sp) = some e →
      markAsTrashed fs trash p freshId now = .ok (e, fs, trash)) ∧
    (∀ fs trash p freshId now sp, safeUploadsPath p = .ok sp →
      (lookupFile fs (splitPath (relFromUploads sp))).isSome = true →
      trash.find? (fun x => x.path = relFromUploads sp) = none →
      markAsTrashed fs trash p freshId now =
        .ok ({ id := freshId, filename := basename (relFromUploads sp),
               path := relFromUploads sp, trashedAt := now }, fs,
             { id := freshId, filename := basename (relFromUploads sp),
               path := relFromUploads sp, trashedAt := now } :: trash)) ∧
    (∀ fs trash t freshId now, markAsTrashed fs trash t freshId now = .error .enoent →
      handleDelete fs trash (some t) freshId now = .notFound) ∧
    (∀ fs trash t freshId now e fs2 tr',
      markAsTrashed fs trash t freshId now = .ok (e, fs2, tr') →
      handleDelete fs trash (some t) freshId now = .okDeleted e.path tr') := by
  refine ⟨markAsTrashed_enoent, markAsTrashed_existing, markAsTrashed_new, ?_, ?_⟩
  · intro fs trash t freshId now hm
    simp only [handleDelete, hm]
  · intro fs trash t freshId now e fs2 tr' hm
    simp only [handleDelete, hm]

/-- C6 witness: the amended theorem applied to a missing file, to an
already-trashed file, and to the 404 mapping. -/
theorem markAsTrashed_spec_witness :
    markAsTrashed exFs [] "missing.png" "id1" 5 = .error .enoent ∧
    markAsTrashed exFs [exTrashEntry] "a.png" "id1" 5 = .ok (exTrashEntry, exFs, [exTrashEntry]) ∧
    handleDelete exFs [] (some "missing.png") "id1" 5 = .notFound :=
  ⟨markAsTrashed_spec.1 exFs [] "missing.png" "id1" 5 "/app/uploads/missing.png"
      (by decide) (by decide),
   markAsTrashed_spec.2.1 exFs [exTrashEntry] "a.png" "id1" 5 "/app/uploads/a.png" exTrashEntry
      (by decide) (by decide) (by decide),
   markAsTrashed_spec.2.2.2.1 exFs [] "missing.png" "id1" 5
     (markAsTrashed_spec.1 exFs [] "missing.png" "id1" 5 "/app/uploads/missing.png"
       (by decide) (by decide))⟩

/--
C9 (confirmed).  Starting from the empty manifest, any sequence of delete and
restore operations leaves the manifest free of duplicate paths; deleting an
already-trashed path returns the existing entry and leaves the manifest
unchanged.
-/
theorem trash_paths_nodup :
    (∀ (fs : List FsEntry) (ops : List TrashOp), ((runOps fs ops).map (·.path)).Nodup) ∧
    (∀ fs trash p freshId now sp e, safeUploadsPath p = .ok sp →
      (lookupFile fs (splitPath (relFromUploads sp))).isSome = true →
      trash.find? (fun x => x.path = relFromUploads sp) = some e →
      markAsTrashed fs trash p freshId now = .ok (e, fs, trash)) := by
  constructor
  · intro fs ops
    have hgen : ∀ (l : List TrashOp) (st : List TrashEntry), (st.map (·.path)).Nodup →
        ((l.foldl (applyOp fs) st).map (·.path)).Nodup := by
      intro l
      induction l with
      | nil => intro st h; exact h
      | cons op rest ih =>
        intro st h
        exact ih (applyOp fs st op) (applyOp_nodup fs st op h)
    exact hgen ops [] (by simp)
  · exact markAsTrashed_existing

/-- C9 witness: deleting the same file twice yields a duplicate-free
manifest, and the second delete returns the existing entry unchanged. -/
theorem trash_paths_nodup_witness :
    ((runOps exFs [.del "a.png" "t1" 3, .del "a.png" "t2" 4]).map (·.path)).Nodup ∧
    markAsTrashed exFs [exTrashEntry] "a.png" "id1" 5 = .ok (exTrashEntry, exFs, [exTrashEntry]) :=
  ⟨trash_paths_nodup.1 exFs [.del "a.png" "t1" 3, .del "a.png" "t2" 4],
   trash_paths_nodup.2 exFs [exTrashEntry] "a.png" "id1" 5 "/app/uploads/a.png" exTrashEntry
     (by decide) (by decide) (by decide)⟩

/--
C7 (confirmed).  For an image known to the Ordered-Image Index (under the
reachable-state invariants: duplicate-free entry ids and at most one manifest
entry for the path), moving it to trash and then restoring the returned
entry's id succeeds, never touches the filesystem (so the file is
byte-identical to the original), leaves the path resolvable by the index, and
leaves the manifest with no entry referencing the image.
-/
theorem trash_restore_roundtrip (fs : List FsEntry) (trash : List TrashEntry)
    (mtime : String → Nat) (p sp freshId : String) (now : Nat)
    (hidx : p ∈ orderedImages fs mtime)
    (hok : safeUploadsPath p = .ok sp)
    (hrel : relFromUploads sp = p)
    (hfile : (lookupFile fs (splitPath p)).isSome = true)
    (hids : (trash.map (·.id)).Nodup)
    (hpaths : trash.countP (fun e => e.path = p) ≤ 1) :
    ∃ e trash₁ trash₂,
      markAsTrashed fs trash p freshId now = .ok (e, fs, trash₁) ∧
      restoreTrashEntry fs trash₁ e.id = some (e, fs, trash₂) ∧
      (∀ x ∈ trash₂, ¬(x.path = p)) ∧
      p ∈ orderedImages fs mtime := by
  have hfile' : (lookupFile fs (splitPath (relFromUploads sp))).isSome = true := by
    rw [hrel]; exact hfile
  cases hfind : trash.find? (fun x => x.path = relFromUploads sp) with
  | some e =>
    have hmem : e ∈ trash := List.mem_of_find?_eq_some hfind
    have hpath : e.path = p := by
      have h1 := List.find?_some hfind
      rw [hrel] at h1
      simpa using h1
    obtain ⟨tr', hrm, hcount⟩ := removeById_eq trash e hmem hids
    refine ⟨e, trash, tr',
      markAsTrashed_existing fs trash p freshId now sp e hok hfile' hfind, ?_, ?_, hidx⟩
    · simp [restoreTrashEntry, hrm]
    · intro x hx
      have h1 := hcount (fun y => y.path = p)
      have h2 : decide (e.path = p) = true := by simp [hpath]
      rw [h2] at h1
      simp only [if_pos] at h1
      have h0 : tr'.countP (fun y => y.path = p) = 0 := by omega
      have := List.countP_eq_zero.mp h0 x hx
      simpa using this
  | none =>
    refine ⟨_, _, trash, markAsTrashed_new fs trash p freshId now sp hok hfile' hfind, ?_, ?_, hidx⟩
    · simp [restoreTrashEntry, removeById]
    · intro x hx
      have := List.find?_eq_none.mp hfind x hx
      rw [hrel] at this
      simpa using this

/-- C7 witness: the round trip on the one-file tree starting from an empty
manifest. -/
theorem trash_restore_roundtrip_witness :
    ∃ e trash₁ trash₂,
      markAsTrashed exFs [] "a.png" "t1" 3 = .ok (e, exFs, trash₁) ∧
      restoreTrashEntry exFs trash₁ e.id = some (e, exFs, trash₂) ∧
      (∀ x ∈ trash₂, ¬(x.path = "a.png")) ∧
      "a.png" ∈ orderedImages exFs exMtime :=
  trash_restore_roundtrip exFs [] exMtime "a.png" "/app/uploads/a.png" "t1" 3
    (by decide) (by decide) (by decide) (by decide) (by decide) (by decide)

/-! ## C5: uniqueFilename -/

def valDigits : List Nat → Nat
  | [] => 0
  | d :: t => d + 10 * valDigits t

lemma natDigitsRevAux_spec :
    ∀ fuel n, n ≤ fuel →
      valDigits (natDigitsRevAux fuel n) = n ∧ ∀ d ∈ natDigitsRevAux fuel n, d < 10 := by
  intro fuel
  induction fuel with
  | zero =>
    intro n hn
    have h0 : n = 0 := by omega
    subst h0
    exact ⟨rfl, by simp [natDigitsRevAux]⟩
  | succ f ih =>
    intro n hn
    by_cases h0 : n = 0
    · subst h0
      simp [natDigitsRevAux, valDigits]
    · have hdiv : n / 10 ≤ f :=
        Nat.le_of_lt_succ (Nat.lt_of_lt_of_le
          (Nat.div_lt_self (Nat.pos_of_ne_zero h0) (by omega)) hn)
      obtain ⟨hval, hlt⟩ := ih (n / 10) hdiv
      constructor
      · simp only [natDigitsRevAux, if_neg h0, valDigits]
        rw [hval]
        omega
      · intro d hd
        simp only [natDigitsRevAux, if_neg h0] at hd
        rcases List.mem_cons.mp hd with rfl | hd'
        · exact Nat.mod_lt _ (by omega)
        · exact hlt d hd'

lemma valDigits_natDigitsRev (n : Nat) : valDigits (natDigitsRev n) = n :=
  (natDigitsRevAux_spec n n (Nat.le_refl n)).1

lemma natDigitsRev_lt (n : Nat) : ∀ d ∈ natDigitsRev n, d < 10 :=
  (natDigitsRevAux_spec n n (Nat.le_refl n)).2

lemma digitChar_inj : ∀ a, a < 10 → ∀ b, b < 10 → digitChar a = digitChar b → a = b := by decide

lemma mapDigit_inj :
    ∀ l1 l2 : List Nat, (∀ d ∈ l1, d < 10) → (∀ d ∈ l2, d < 10) →
      l1.map digitChar = l2.map digitChar → l1 = l2 := by
  intro l1
  induction l1 with
  | nil =>
    intro l2 _ _ h
    cases l2 with
    | nil => rfl
    | cons b t => cases h
  | cons a t1 ih =>
    intro l2 h1 h2 h
    cases l2 with
    | nil => cases h
    | cons b t2 =>
      simp only [List.map_cons, List.cons.injEq] at h
      have ha := h1 a (by simp)
      have hb := h2 b (by simp)
      rw [digitChar_inj a ha b hb h.1,
        ih t2 (fun d hd => h1 d (by simp [hd])) (fun d hd => h2 d (by simp [hd])) h.2]

lemma natToString_inj_pos (m n : Nat) (hm : m ≠ 0) (hn : n ≠ 0)
    (h : natToString m = natToString n) : m = n := by
  unfold natToString at h
  rw [if_neg hm, if_neg hn] at h
  have hd : (natDigitsRev m).reverse.map digitChar = (natDigitsRev n).reverse.map digitChar := by
    have := congrArg String.data h
    simpa using this
  have hrev := mapDigit_inj _ _ (fun d hd => natDigitsRev_lt m d (List.mem_reverse.mp hd))
    (fun d hd => natDigitsRev_lt n d (List.mem_reverse.mp hd)) hd
  have hdig : natDigitsRev m = natDigitsRev n := by
    have := congrArg List.reverse hrev
    simpa using this
  calc m = valDigits (natDigitsRev m) := (valDigits_natDigitsRev m).symm
    _ = valDigits (natDigitsRev n) := by rw [hdig]
    _ = n := valDigits_natDigitsRev n

lemma probeName_inj_pos (base ext : String) (i j : Nat) (hi : i ≠ 0) (hj : j ≠ 0)
    (h : probeName base ext i = probeName base ext j) : i = j := by
  unfold probeName at h
  have hd := congrArg String.data h
  simp only [String.data_append] at hd
  have h1 := List.append_cancel_left (List.append_cancel_right hd)
  exact natToString_inj_pos i j hi hj (by
    apply congrArg String.mk at h1
    simpa using h1)

lemma uniqueFilenameLoop_sound (dir : List String) (base ext : String) :
    ∀ fuel candidate counter c,
      uniqueFilenameLoop dir base ext candidate counter fuel = some c →
      c ∉ dir ∧ (c = candidate ∨ ∃ k, counter ≤ k ∧ c = probeName base ext k ∧
        candidate ∈ dir ∧ ∀ i, counter ≤ i → i < k → probeName base ext i ∈ dir) := by
  intro fuel
  induction fuel with
  | zero => intro candidate counter c h; cases h
  | succ f ih =>
    intro candidate counter c h
    simp only [uniqueFilenameLoop] at h
    split at h
    · rename_i hcand
      obtain ⟨hnot, hshape⟩ := ih (probeName base ext counter) (counter + 1) c h
      refine ⟨hnot, Or.inr ?_⟩
      rcases hshape with rfl | ⟨k, hk1, hk2, hpc, hall⟩
      · exact ⟨counter, Nat.le_refl _, rfl, hcand, fun i h1 h2 => absurd h1 (by omega)⟩
      · refine ⟨k, by omega, hk2, hcand, ?_⟩
        intro i h1 h2
        by_cases hi : i = counter
        · subst hi
          exact hpc
        · exact hall i (by omega) h2
    · rename_i hcand
      simp only [Option.some.injEq] at h
      subst h
      exact ⟨hcand, Or.inl rfl⟩

lemma uniqueFilenameLoop_total (dir : List String) (base ext : String) :
    ∀ fuel counter candidate, 1 ≤ fuel →
      (candidate ∉ dir ∨
        ∃ j, counter ≤ j ∧ j + 1 < counter + fuel ∧ probeName base ext j ∉ dir) →
      (uniqueFilenameLoop dir base ext candidate counter fuel).isSome = true := by
  intro fuel
  induction fuel with
  | zero => intro counter candidate h1; omega
  | succ f ih =>
    intro counter candidate _ hyp
    simp only [uniqueFilenameLoop]
    split
    · rename_i hcand
      rcases hyp with hc | ⟨j, hj1, hj2, hj3⟩
      · exact absurd hcand hc
      · have hf : 1 ≤ f := by omega
        apply ih (counter + 1) (probeName base ext counter) hf
        by_cases hjc : j = counter
        · subst hjc
          exact Or.inl hj3
        · exact Or.inr ⟨j, by omega, by omega, hj3⟩
    · rfl

/--
C5 (confirmed).  For every directory listing and base name, `uniqueFilename`
returns a name that is not in the directory, and that name is either the base
name itself (accepted immediately) or the probe `` `${base}-${k}${ext}` `` for
some counter `k ≥ 1` reached monotonically: the base name and every earlier
probe were taken.  In the embedding `fsp.access` is a pure membership test, so
the only failure of the source loop — a filesystem error other than `ENOENT`
— has no counterpart and the function is total.
-/
theorem uniqueFilename_spec (baseName : String) (dir : List String) :
    ∃ c, uniqueFilename baseName dir = some c ∧ c ∉ dir ∧
      (c = baseName ∨ ∃ k, 1 ≤ k ∧
        c = probeName (baseOf baseName (extname baseName)) (extname baseName) k ∧
        baseName ∈ dir ∧
        ∀ i, 1 ≤ i → i < k →
          probeName (baseOf baseName (extname baseName)) (extname baseName) i ∈ dir) := by
  have htotal : (uniqueFilenameLoop dir (baseOf baseName (extname baseName))
      (extname baseName) baseName 1 (dir.length + 2)).isSome = true := by
    apply uniqueFilenameLoop_total dir _ _ (dir.length + 2) 1 baseName (by omega)
    by_cases hb : baseName ∈ dir
    · right
      by_contra hno
      push_neg at hno
      have hsub : ((List.range (dir.length + 1)).map
          (fun i => probeName (baseOf baseName (extname baseName)) (extname baseName) (i + 1)))
          ⊆ dir := by
        intro x hx
        obtain ⟨i, hi, rfl⟩ := List.mem_map.mp hx
        have hir := List.mem_range.mp hi
        exact hno (i + 1) (by omega) (by omega)
      have hnd : ((List.range (dir.length + 1)).map
          (fun i => probeName (baseOf baseName (extname baseName)) (extname baseName) (i + 1))).Nodup := by
        refine List.Nodup.map_on ?_ (List.nodup_range _)
        intro x _ y _ hxy
        have := probeName_inj_pos _ _ (x + 1) (y + 1) (by omega) (by omega) hxy
        omega
      have hle := (List.subperm_of_subset hnd hsub).length_le
      simp at hle
    · exact Or.inl hb
  obtain ⟨c, hc⟩ := Option.isSome_iff_exists.mp htotal
  obtain ⟨hnot, hshape⟩ := uniqueFilenameLoop_sound dir _ _ (dir.length + 2) baseName 1 c hc
  refine ⟨c, hc, hnot, ?_⟩
  rcases hshape with rfl | ⟨k, hk1, hk2, hmem, hall⟩
  · exact Or.inl rfl
  · exact Or.inr ⟨k, hk1, hk2, hmem, hall⟩

/-- C5 witness: the theorem applied to a directory already holding the base
name and its first probe. -/
theorem uniqueFilename_spec_witness :
    ∃ c, uniqueFilename "a.png" ["a.png", "a-1.png"] = some c ∧
      c ∉ ["a.png", "a-1.png"] ∧
      (c = "a.png" ∨ ∃ k, 1 ≤ k ∧
        c = probeName (baseOf "a.png" (extname "a.png")) (extname "a.png") k ∧
        "a.png" ∈ ["a.png", "a-1.png"] ∧
        ∀ i, 1 ≤ i → i < k →
          probeName (baseOf "a.png" (extname "a.png")) (extname "a.png") i ∈
            ["a.png", "a-1.png"]) :=
  uniqueFilename_spec "a.png" ["a.png", "a-1.png"]

end LoveFromFans
